import Mathlib

/-!
Verification of the syster-cli orchestration layer.

This file gives a shallow embedding of the orchestration core of the
syster-cli crate (src/lib.rs and src/main.rs): diagnostic aggregation
and sorting, summary counts, workspace loading, standard-library
resolution, and the interchange import/export pipeline.  External
collaborators (the analysis engine, the byte-level codecs, the
filesystem) are modelled as explicit function parameters, exactly at the
interface the source uses them through.  Machine integers (`u32`,
`usize`) are modelled as `Nat`; none of the modelled arithmetic can
overflow in the source (counters and 1-based position adjustments).
-/

namespace SysterCli

/-- Severity levels of a diagnostic (`syster::hir::Severity`). -/
inductive Severity where
  | error
  | warning
  | info
  | hint
  deriving DecidableEq, Repr

/-- A diagnostic with location information, as built by
`collect_diagnostics` in src/lib.rs (`DiagnosticInfo`); `line`/`col` are
the 1-indexed display positions. -/
structure DiagnosticInfo where
  file : String
  line : Nat
  col : Nat
  end_line : Nat
  end_col : Nat
  message : String
  severity : Severity
  code : Option String
  deriving DecidableEq, Repr

/-- A diagnostic as returned by the engine's `check_file` (0-indexed
spans).  The engine is an external collaborator; only the fields read by
src/lib.rs are modelled. -/
structure EngineDiag where
  start_line : Nat
  start_col : Nat
  end_line : Nat
  end_col : Nat
  message : String
  severity : Severity
  code : Option String
  deriving DecidableEq, Repr

/-- The per-diagnostic conversion done inside the loop of
`collect_diagnostics`: attach the file path and shift the 0-indexed span
to 1-indexed display positions. -/
def toDiagnosticInfo (path : String) (d : EngineDiag) : DiagnosticInfo :=
  { file := path
    line := d.start_line + 1
    col := d.start_col + 1
    end_line := d.end_line + 1
    end_col := d.end_col + 1
    message := d.message
    severity := d.severity
    code := d.code }

/-- The analysis engine (`syster::ide::AnalysisHost`) at the interface
src/lib.rs uses: the registered file paths in registration order, the
path-to-file-id map, the engine's per-file check pass, and the size of
the symbol index.  `fileId` and `checkFile` are pure functions of the
host state, matching the engine boundary in the spec. -/
structure AnalysisHost where
  files : List String
  fileId : String → Option Nat
  checkFile : Nat → List EngineDiag
  symbolCount : Nat

/-- The body of the outer loop of `collect_diagnostics` for one
registered path: if the path resolves to a file id, convert every
diagnostic of `check_file`; otherwise contribute nothing. -/
def fileDiagnostics (host : AnalysisHost) (path : String) : List DiagnosticInfo :=
  match host.fileId path with
  | some fid => (host.checkFile fid).map (toDiagnosticInfo path)
  | none => []

/-- Concatenation of per-element lists, in order (the `all_diagnostics`
accumulation across the file loop). -/
def flatMapList (g : α → List β) : List α → List β
  | [] => []
  | a :: l => g a ++ flatMapList g l

/-- The sort key used by `collect_diagnostics`:
`(&a.file, a.line, a.col)` compared lexicographically. -/
abbrev DKey := Lex (String × Lex (Nat × Nat))

/-- The key of one diagnostic. -/
def diagKey (d : DiagnosticInfo) : DKey :=
  toLex (d.file, toLex (d.line, d.col))

/-- The comparator of `collect_diagnostics`:
`(&a.file, a.line, a.col).cmp(&(&b.file, b.line, b.col))` as a
non-strict order. -/
def diagLE (a b : DiagnosticInfo) : Prop :=
  diagKey a ≤ diagKey b

instance : DecidableRel diagLE := fun a b =>
  inferInstanceAs (Decidable (diagKey a ≤ diagKey b))

instance : IsTotal DiagnosticInfo diagLE :=
  ⟨fun a b => le_total (diagKey a) (diagKey b)⟩

instance : IsTrans DiagnosticInfo diagLE :=
  ⟨fun _ _ _ hab hbc => le_trans hab hbc⟩

/-- Boolean test that a diagnostic has a given sort key (used to state
stability of the sort). -/
def keyEqB (k : DKey) (d : DiagnosticInfo) : Bool :=
  decide (diagKey d = k)

/-- `collect_diagnostics` (src/lib.rs): for every registered file, query
the check pass, convert, concatenate, then sort by
`(file, line, col)`.  Rust's `sort_by` is a stable sort; it is modelled
by `List.insertionSort`, which is stable for the same comparator. -/
def collect_diagnostics (host : AnalysisHost) : List DiagnosticInfo :=
  List.insertionSort diagLE (flatMapList (fileDiagnostics host) host.files)

/-- Result record of `run_analysis` (src/lib.rs `AnalysisResult`). -/
structure AnalysisResult where
  file_count : Nat
  symbol_count : Nat
  error_count : Nat
  warning_count : Nat
  diagnostics : List DiagnosticInfo
  deriving Repr

/-- `run_analysis` (src/lib.rs), starting from the host state after the
loading steps: collect the diagnostics, then derive the error and
warning counts by filtering that same list. -/
def run_analysis (host : AnalysisHost) : AnalysisResult :=
  let diagnostics := collect_diagnostics host
  let error_count :=
    (diagnostics.filter (fun d => decide (d.severity = Severity.error))).length
  let warning_count :=
    (diagnostics.filter (fun d => decide (d.severity = Severity.warning))).length
  { file_count := host.files.length
    symbol_count := host.symbolCount
    error_count := error_count
    warning_count := warning_count
    diagnostics := diagnostics }

/-- Position of a parse error reported by the engine. -/
structure ParsePosition where
  line : Nat
  column : Nat
  deriving DecidableEq, Repr

/-- A parse error returned by the engine's `set_file_content`. -/
structure ParseError where
  position : ParsePosition
  message : String
  deriving DecidableEq, Repr

/-- The engine's file store, at the `register-file-content` boundary:
content registered under each path. -/
structure EngineState where
  files : List (String × String)
  deriving Repr

/-- The engine's `set_file_content` at its interface: register `content`
under `path` (replacing any previous registration) and return the parse
errors, which are a pure function `parse` of path and content. -/
def set_file_content (parse : String → String → List ParseError)
    (st : EngineState) (path content : String) :
    EngineState × List ParseError :=
  ({ files := (path, content) :: st.files.filter (fun pr => decide (pr.1 ≠ path)) },
   parse path content)

/-- The `eprintln!` line `load_file` emits for one parse error. -/
def parseErrorReport (path : String) (e : ParseError) : String :=
  "parse error: " ++ path ++ ":" ++ toString e.position.line ++ ":" ++
    toString e.position.column ++ ": " ++ e.message

/-- `load_file` (src/lib.rs): read the file (modelled by `readResult`,
`none` standing for a failed `read_to_string`), register the content
with the engine, report every parse error to the error stream (the
reported lines are returned), and succeed regardless of parse errors. -/
def load_file (parse : String → String → List ParseError)
    (st : EngineState) (path : String) (readResult : Option String) :
    Except String (EngineState × List String) :=
  match readResult with
  | none => Except.error ("Failed to read " ++ path)
  | some content =>
    let res := set_file_content parse st path content
    Except.ok (res.1, res.2.map (parseErrorReport path))

/-- The fixed list of conventional stdlib locations tried by
`load_stdlib_files`, in order. -/
def defaultStdlibPaths : List String :=
  ["sysml.library", "../sysml.library", "../base/sysml.library"]

/-- `load_stdlib_files` (src/lib.rs), at the level of which directory
gets loaded: an explicit custom path is used if it exists and is a hard
error otherwise; else the first existing default location is used; else
loading proceeds with no stdlib (`Except.ok none`), which the source
accompanies with only a verbose-mode notice.  `pathExists` models
`Path::exists`. -/
def load_stdlib_files (pathExists : String → Bool)
    (customPath : Option String) : Except String (Option String) :=
  match customPath with
  | some p =>
    if pathExists p then Except.ok (some p)
    else Except.error ("Stdlib path does not exist: " ++ p)
  | none =>
    match defaultStdlibPaths.find? pathExists with
    | some p => Except.ok (some p)
    | none => Except.ok none

/-- The byte-level interchange codecs (`Xmi`, `Kpar`, `JsonLd`),
external collaborators selected by the dispatch code in src/lib.rs. -/
inductive InterchangeCodec where
  | xmi
  | kpar
  | jsonld
  deriving DecidableEq, Repr

/-- An interchange model Element (spec section 3): stable identity, kind
tag, names, optional owner back-reference, and the source path its
symbol came from (the origin used for standard-library detection). -/
structure Element where
  id : String
  kind : String
  name : String
  qualifiedName : String
  owner : Option String
  sourcePath : String
  deriving DecidableEq, Repr

/-- An interchange model Relationship: a directed edge between two
element identities with a kind tag, carrying the source path of its
origin. -/
structure Relationship where
  source : String
  target : String
  kind : String
  sourcePath : String
  deriving DecidableEq, Repr

/-- An interchange Model: elements as a mapping from identity to Element
(association list, keys unique) and an ordered sequence of
relationships. -/
structure Model where
  elements : List (String × Element)
  relationships : List Relationship
  deriving Repr

/-- Rust's `str::to_lowercase` as used on format names (ASCII in every
call site): lowercase every character. -/
def strToLower (s : String) : String :=
  String.mk (s.data.map Char.toLower)

/-- The marker whose containment in a source path identifies
standard-library origin (src/lib.rs uses
`path_str.contains("sysml.library")`). -/
def stdlibMarker : String := "sysml.library"

/-- Standard-library origin detection by source-path containment. -/
def isStdlibPath (path : String) : Bool :=
  decide (stdlibMarker.toList <:+: path.toList)

/-- Modelled from the spec: the `self_contained` filtering step of the
export pipeline (the six-argument `export_model` and `export_from_host`
referenced by src/main.rs and the tests but absent from the src/lib.rs
snapshot).  Spec section 4.4 step 4: unless `self_contained` is
requested, filter out every Element and Relationship whose origin is the
standard library, detected by source-path containment; `self_contained`
retains everything. -/
def export_filter_stdlib (model : Model) (selfContained : Bool) : Model :=
  if selfContained then model
  else
    { elements := model.elements.filter (fun pr => ! isStdlibPath pr.2.sourcePath)
      relationships := model.relationships.filter (fun r => ! isStdlibPath r.sourcePath) }

/-- The format-resolution step shared verbatim by `import_model` and
`import_model_into_host` (src/lib.rs): the format string is the explicit
override, else the input's file extension, else the literal `xmi`; the
lowercased string is matched against the recognized names (the Rust
`match` on string literals is a sequential equality test); an
unrecognized name falls back to `detect_format` on the input (modelled
by `detect`, a pure function of the extension), and only if that also
fails does resolution fail.  `ext` models `input.extension()`. -/
def import_resolve_format (detect : Option String → Option InterchangeCodec)
    (override ext : Option String) : Except String InterchangeCodec :=
  if strToLower (override.getD (ext.getD ("xmi"))) = "xmi"
      ∨ strToLower (override.getD (ext.getD ("xmi"))) = "sysmlx"
      ∨ strToLower (override.getD (ext.getD ("xmi"))) = "kermlx" then
    Except.ok InterchangeCodec.xmi
  else if strToLower (override.getD (ext.getD ("xmi"))) = "kpar" then
    Except.ok InterchangeCodec.kpar
  else if strToLower (override.getD (ext.getD ("xmi"))) = "jsonld"
      ∨ strToLower (override.getD (ext.getD ("xmi"))) = "json-ld"
      ∨ strToLower (override.getD (ext.getD ("xmi"))) = "json" then
    Except.ok InterchangeCodec.jsonld
  else
    match detect ext with
    | some c => Except.ok c
    | none =>
      Except.error ("Unknown format: " ++ override.getD (ext.getD ("xmi")) ++
        ". Use xmi, sysmlx, kermlx, kpar, or jsonld.")

/-- Second definition, following the words of the amended C5: the
recognized-name table of the import dispatch, applied to a lowercased
name.  Used only to state which names the `match` recognizes. -/
def recognizedFormatName (s : String) : Option InterchangeCodec :=
  if strToLower s = "xmi" ∨ strToLower s = "sysmlx" ∨ strToLower s = "kermlx" then
    some InterchangeCodec.xmi
  else if strToLower s = "kpar" then
    some InterchangeCodec.kpar
  else if strToLower s = "jsonld" ∨ strToLower s = "json-ld" ∨ strToLower s = "json" then
    some InterchangeCodec.jsonld
  else none

/-- The fixed set of format names accepted by the export dispatch of
`export_model` (src/lib.rs step 8). -/
def supportedExportNames : List String :=
  ["xmi", "kpar", "jsonld", "json-ld"]

/-- The codec dispatch of `export_model` (src/lib.rs step 8): match the
lowercased format name; anything else is the `Unsupported format` error. -/
def export_select_codec (format : String) : Except String InterchangeCodec :=
  if strToLower format = "xmi" then Except.ok InterchangeCodec.xmi
  else if strToLower format = "kpar" then Except.ok InterchangeCodec.kpar
  else if strToLower format = "jsonld" ∨ strToLower format = "json-ld" then
    Except.ok InterchangeCodec.jsonld
  else
    Except.error ("Unsupported format: " ++ format ++ ". Use xmi, kpar, or jsonld.")

/-- Result record of the import functions (src/lib.rs `ImportResult`). -/
structure ImportResult where
  element_count : Nat
  relationship_count : Nat
  error_count : Nat
  messages : List String
  deriving Repr

/-- The warning pushed for a dangling relationship source. -/
def relSourceMsg (rel : Relationship) : String :=
  "Warning: Relationship source \x27" ++ rel.source ++ "\x27 not found"

/-- The warning pushed for a dangling relationship target. -/
def relTargetMsg (rel : Relationship) : String :=
  "Warning: Relationship target \x27" ++ rel.target ++ "\x27 not found"

/-- One iteration of the validation loop of `import_model`
(src/lib.rs): for a relationship, each endpoint that does not resolve in
the element map appends one warning and increments the error counter. -/
def validateRelStep (elements : List (String × Element))
    (acc : List String × Nat) (rel : Relationship) : List String × Nat :=
  let acc1 :=
    if (elements.lookup rel.source).isNone then
      (acc.1 ++ [relSourceMsg rel], acc.2 + 1)
    else acc
  if (elements.lookup rel.target).isNone then
    (acc1.1 ++ [relTargetMsg rel], acc1.2 + 1)
  else acc1

/-- `import_model` (src/lib.rs), after a successful decode of `m`:
run the validation loop over all relationships and return the counts,
the error counter and the accumulated warnings.  Decode failures
(before this point) are out of scope of the modelled step. -/
def import_model (m : Model) : ImportResult :=
  let v := m.relationships.foldl (validateRelStep m.elements) ([], 0)
  { element_count := m.elements.length
    relationship_count := m.relationships.length
    error_count := v.2
    messages := v.1 }

/-- The number of dangling endpoints of one relationship. -/
def endpointErrors (elements : List (String × Element))
    (rel : Relationship) : Nat :=
  (if (elements.lookup rel.source).isNone then 1 else 0) +
    (if (elements.lookup rel.target).isNone then 1 else 0)

/-- The single success message built by `import_model_into_host`. -/
def symbolsMessage (n : Nat) : String :=
  "Successfully imported " ++ toString n ++ " symbols"

/-- `import_model_into_host` (src/lib.rs), after a successful decode of
`m`: convert the model to symbols (`symbols_from_model`, an external
collaborator modelled by `symbolsFromModel`), merge them additively into
the host, and return a result with a hard-coded zero error count and the
single success message; no endpoint validation is performed. -/
def import_model_into_host {σ : Type} (symbolsFromModel : Model → List σ)
    (hostSymbols : List σ) (m : Model) : List σ × ImportResult :=
  let symbols := symbolsFromModel m
  (hostSymbols ++ symbols,
   { element_count := m.elements.length
     relationship_count := m.relationships.length
     error_count := 0
     messages := [symbolsMessage symbols.length] })

/-! Concrete inputs used by the witnesses. -/

/-- A relationship whose two endpoints resolve to nothing. -/
def demoRel : Relationship :=
  { source := "e1", target := "e2", kind := "specialization", sourcePath := "m.sysml" }

/-- A model with no elements and one fully dangling relationship. -/
def demoModel : Model :=
  { elements := [], relationships := [demoRel] }

/-- A diagnostic produced for file id 0. -/
def demoDiag0 : EngineDiag :=
  { start_line := 4, start_col := 2, end_line := 4, end_col := 9
    message := "unresolved reference", severity := Severity.error, code := some ("E001") }

/-- A diagnostic produced for file id 1. -/
def demoDiag1 : EngineDiag :=
  { start_line := 0, start_col := 0, end_line := 0, end_col := 3
    message := "unused definition", severity := Severity.warning, code := none }

/-- A two-file host, files registered in non-alphabetical order. -/
def demoHost : AnalysisHost :=
  { files := ["b.sysml", "a.sysml"]
    fileId := fun p => if p = "a.sysml" then some 0 else some 1
    checkFile := fun fid => if fid = 0 then [demoDiag0] else [demoDiag1]
    symbolCount := 3 }

/-- The same registered files in the opposite order. -/
def demoFilesSwapped : List String := ["a.sysml", "b.sysml"]

/-! Helper lemmas. -/

/-- Unfolding lemma for the validation loop: the final error counter
adds the total number of dangling endpoints, and the message list grows
by exactly that many entries. -/
theorem validate_foldl_spec (elements : List (String × Element)) :
    ∀ (rels : List Relationship) (acc : List String × Nat),
      (rels.foldl (validateRelStep elements) acc).2
          = acc.2 + (rels.map (endpointErrors elements)).sum
        ∧ (rels.foldl (validateRelStep elements) acc).1.length
          = acc.1.length + (rels.map (endpointErrors elements)).sum
  | [], acc => by simp
  | rel :: rest, acc => by
    have ih := validate_foldl_spec elements rest (validateRelStep elements acc rel)
    have hstep2 : (validateRelStep elements acc rel).2
        = acc.2 + endpointErrors elements rel := by
      unfold validateRelStep endpointErrors
      by_cases hs : (elements.lookup rel.source).isNone
        <;> by_cases ht : (elements.lookup rel.target).isNone
        <;> simp [hs, ht]
    have hstep1 : (validateRelStep elements acc rel).1.length
        = acc.1.length + endpointErrors elements rel := by
      unfold validateRelStep endpointErrors
      by_cases hs : (elements.lookup rel.source).isNone
        <;> by_cases ht : (elements.lookup rel.target).isNone
        <;> simp [hs, ht]
    refine ⟨?_, ?_⟩
    · rw [List.foldl_cons, ih.1, hstep2, List.map_cons, List.sum_cons]
      omega
    · rw [List.foldl_cons, ih.2, hstep1, List.map_cons, List.sum_cons]
      omega

/-! Claim theorems. -/

/-- C1: with `self_contained = false` the export filter removes exactly
the standard-library content: the result is a sublist (hence subset) of
the `self_contained = true` export, it contains zero elements and zero
relationships whose source path indicates standard-library origin, and
`self_contained = true` retains everything. -/
theorem c1_self_contained_filter (m : Model) :
    export_filter_stdlib m true = m
    ∧ (export_filter_stdlib m false).elements.Sublist
        (export_filter_stdlib m true).elements
    ∧ (export_filter_stdlib m false).relationships.Sublist
        (export_filter_stdlib m true).relationships
    ∧ (export_filter_stdlib m false).elements.all
        (fun pr => ! isStdlibPath pr.2.sourcePath) = true
    ∧ (export_filter_stdlib m false).relationships.all
        (fun r => ! isStdlibPath r.sourcePath) = true := by
  refine ⟨rfl, ?_, ?_, ?_, ?_⟩
  · exact List.filter_sublist m.elements
  · exact List.filter_sublist m.relationships
  · simp only [export_filter_stdlib, if_neg Bool.false_ne_true, List.all_eq_true]
    intro pr hpr
    exact (List.mem_filter.mp hpr).2
  · simp only [export_filter_stdlib, if_neg Bool.false_ne_true, List.all_eq_true]
    intro r hr
    exact (List.mem_filter.mp hr).2

/-- C3: in the result of `run_analysis`, the error count and the warning
count are exactly the number of diagnostics of the corresponding
severity in the diagnostics list returned in the same result. -/
theorem c3_counts_derived_from_diagnostics (host : AnalysisHost) :
    (run_analysis host).error_count
        = ((run_analysis host).diagnostics.filter
            (fun d => decide (d.severity = Severity.error))).length
    ∧ (run_analysis host).warning_count
        = ((run_analysis host).diagnostics.filter
            (fun d => decide (d.severity = Severity.warning))).length :=
  ⟨rfl, rfl⟩

/-- C4: in the validation-only import, the error counter totals exactly
one per dangling endpoint over all relationships, the warning list gains
exactly one message per dangling endpoint, there is no hard failure (the
function is total and returns a result), and a relationship with both
endpoints dangling contributes two errors. -/
theorem c4_dangling_endpoints_counted_each (m : Model) :
    (import_model m).error_count
        = (m.relationships.map (endpointErrors m.elements)).sum
    ∧ (import_model m).messages.length
        = (m.relationships.map (endpointErrors m.elements)).sum
    ∧ ∀ rel : Relationship, m.elements.lookup rel.source = none →
        m.elements.lookup rel.target = none →
        endpointErrors m.elements rel = 2 := by
  have h := validate_foldl_spec m.elements m.relationships ([], 0)
  refine ⟨?_, ?_, ?_⟩
  · show (m.relationships.foldl (validateRelStep m.elements) ([], 0)).2 = _
    rw [h.1]
    simp
  · show (m.relationships.foldl (validateRelStep m.elements) ([], 0)).1.length = _
    rw [h.2]
    simp
  · intro rel hs ht
    simp [endpointErrors, hs, ht]

/-- Witness for C4: on a concrete model with a single relationship whose
source and target both fail to resolve, the validation import reports
two errors. -/
theorem c4_witness :
    demoModel.elements.lookup demoRel.source = none
    ∧ demoModel.elements.lookup demoRel.target = none
    ∧ (import_model demoModel).error_count = 2 := by
  have h := c4_dangling_endpoints_counted_each demoModel
  refine ⟨rfl, rfl, ?_⟩
  rw [h.1]
  have h2 := h.2.2 demoRel rfl rfl
  show ([demoRel].map (endpointErrors demoModel.elements)).sum = 2
  rw [List.map_cons, List.map_nil, List.sum_cons, List.sum_nil, h2]
  rfl

/-- C9: importing a decoded model into the workspace returns a result
with error count zero and exactly one message, whatever the model's
relationships are; the symbols are merged additively into the host with
no endpoint check. -/
theorem c9_import_into_host_skips_validation {σ : Type}
    (symbolsFromModel : Model → List σ) (hostSymbols : List σ) (m : Model) :
    (import_model_into_host symbolsFromModel hostSymbols m).2.error_count = 0
    ∧ (import_model_into_host symbolsFromModel hostSymbols m).2.messages.length = 1
    ∧ (import_model_into_host symbolsFromModel hostSymbols m).1
        = hostSymbols ++ symbolsFromModel m :=
  ⟨rfl, rfl, rfl⟩

/-- C10: in the validation-only import, the number of warning messages
always equals the validation error count. -/
theorem c10_messages_match_error_count (m : Model) :
    (import_model m).messages.length = (import_model m).error_count := by
  have h := validate_foldl_spec m.elements m.relationships ([], 0)
  show (m.relationships.foldl (validateRelStep m.elements) ([], 0)).1.length
      = (m.relationships.foldl (validateRelStep m.elements) ([], 0)).2
  rw [h.1, h.2]
  simp

/-- C7: loading a single file whose content was read successfully always
succeeds, registers the file with the engine, and reports one line per
parse error returned by the engine; parse errors never abort the load. -/
theorem c7_parse_errors_do_not_abort (parse : String → String → List ParseError)
    (st : EngineState) (path content : String) :
    ∃ st2 reports,
      load_file parse st path (some content) = Except.ok (st2, reports)
        ∧ (path, content) ∈ st2.files
        ∧ reports.length = (parse path content).length := by
  refine ⟨_, _, rfl, ?_, ?_⟩
  · exact List.mem_cons_self _ _
  · simp [set_file_content]

/-- C8: standard-library resolution is an ordered first-match-wins
chain: an explicit custom path is used when it exists and is a hard
error when it does not; otherwise the fixed default locations are tried
in order and the first existing one is used; if none exists, loading
proceeds without a standard library and without failing. -/
theorem c8_stdlib_resolution_chain (pathExists : String → Bool)
    (customPath : Option String) :
    (∀ p, customPath = some p → pathExists p = true →
        load_stdlib_files pathExists customPath = Except.ok (some p))
    ∧ (∀ p, customPath = some p → pathExists p = false →
        load_stdlib_files pathExists customPath
          = Except.error ("Stdlib path does not exist: " ++ p))
    ∧ (customPath = none → pathExists ("sysml.library") = true →
        load_stdlib_files pathExists customPath
          = Except.ok (some ("sysml.library")))
    ∧ (customPath = none → pathExists ("sysml.library") = false →
        pathExists ("../sysml.library") = true →
        load_stdlib_files pathExists customPath
          = Except.ok (some ("../sysml.library")))
    ∧ (customPath = none → pathExists ("sysml.library") = false →
        pathExists ("../sysml.library") = false →
        pathExists ("../base/sysml.library") = true →
        load_stdlib_files pathExists customPath
          = Except.ok (some ("../base/sysml.library")))
    ∧ (customPath = none → pathExists ("sysml.library") = false →
        pathExists ("../sysml.library") = false →
        pathExists ("../base/sysml.library") = false →
        load_stdlib_files pathExists customPath = Except.ok none) := by
  refine ⟨?_, ?_, ?_, ?_, ?_, ?_⟩
  · intro p hc he
    subst hc
    simp [load_stdlib_files, he]
  · intro p hc he
    subst hc
    simp [load_stdlib_files, he]
  · intro hc h1
    subst hc
    simp [load_stdlib_files, defaultStdlibPaths, List.find?, h1]
  · intro hc h1 h2
    subst hc
    simp [load_stdlib_files, defaultStdlibPaths, List.find?, h1, h2]
  · intro hc h1 h2 h3
    subst hc
    simp [load_stdlib_files, defaultStdlibPaths, List.find?, h1, h2, h3]
  · intro hc h1 h2 h3
    subst hc
    simp [load_stdlib_files, defaultStdlibPaths, List.find?, h1, h2, h3]

/-- Witness for C8: the four observable outcomes on concrete inputs. -/
theorem c8_witness :
    load_stdlib_files (fun _ => true) (some ("/custom/lib")) = Except.ok (some ("/custom/lib"))
    ∧ load_stdlib_files (fun _ => false) (some ("/custom/lib"))
        = Except.error ("Stdlib path does not exist: /custom/lib")
    ∧ load_stdlib_files (fun p => decide (p = "../sysml.library")) none
        = Except.ok (some ("../sysml.library"))
    ∧ load_stdlib_files (fun _ => false) none = Except.ok none := by
  refine ⟨?_, ?_, ?_, ?_⟩
  · exact (c8_stdlib_resolution_chain (fun _ => true) (some ("/custom/lib"))).1
      _ rfl rfl
  · exact (c8_stdlib_resolution_chain (fun _ => false) (some ("/custom/lib"))).2.1
      _ rfl rfl
  · exact (c8_stdlib_resolution_chain (fun p => decide (p = "../sysml.library")) none).2.2.2.1
      rfl (by decide) (by decide)
  · exact (c8_stdlib_resolution_chain (fun _ => false) none).2.2.2.2.2
      rfl rfl rfl rfl

/-- Normal form of the import format resolution: first the recognized-name
table on the resolved format string, then extension-based detection, then
the unknown-format error. -/
theorem import_resolve_format_eq (detect : Option String → Option InterchangeCodec)
    (override ext : Option String) :
    import_resolve_format detect override ext =
      match recognizedFormatName (override.getD (ext.getD ("xmi"))), detect ext with
      | some c, _ => Except.ok c
      | none, some c => Except.ok c
      | none, none =>
        Except.error ("Unknown format: " ++ override.getD (ext.getD ("xmi")) ++
          ". Use xmi, sysmlx, kermlx, kpar, or jsonld.") := by
  unfold import_resolve_format recognizedFormatName
  split_ifs <;> cases detect ext <;> rfl

/-- Counterexample to C5 as stated: with no explicit override and an
input whose path has no extension, extension-based detection identifies
no codec, yet the import does not fail with the unknown-format error:
the format string defaults to `xmi` and resolution selects the xmi
codec. -/
theorem c5_counterexample :
    import_resolve_format (fun _ => none) none none = Except.ok InterchangeCodec.xmi := rfl

/-- C5 (amended): import format resolution.  An explicit override whose
lowercased name is recognized selects its codec; with no override, a
recognized extension selects its codec; with no override and no
extension the format string defaults to `xmi`, so resolution yields the
xmi codec instead of failing; an unrecognized format name (from override
or extension) falls back to extension-based codec detection, and only
when that also fails does the import fail with the unknown-format
error. -/
theorem c5_amended_format_resolution
    (detect : Option String → Option InterchangeCodec) (override ext : Option String) :
    (∀ s c, override = some s → recognizedFormatName s = some c →
        import_resolve_format detect override ext = Except.ok c)
    ∧ (∀ e c, override = none → ext = some e → recognizedFormatName e = some c →
        import_resolve_format detect override ext = Except.ok c)
    ∧ (override = none → ext = none →
        import_resolve_format detect override ext = Except.ok InterchangeCodec.xmi)
    ∧ (∀ c, recognizedFormatName (override.getD (ext.getD ("xmi"))) = none →
        detect ext = some c →
        import_resolve_format detect override ext = Except.ok c)
    ∧ (recognizedFormatName (override.getD (ext.getD ("xmi"))) = none →
        detect ext = none →
        import_resolve_format detect override ext
          = Except.error ("Unknown format: " ++ override.getD (ext.getD ("xmi")) ++
              ". Use xmi, sysmlx, kermlx, kpar, or jsonld.")) := by
  refine ⟨?_, ?_, ?_, ?_, ?_⟩
  · intro s c ho hr
    subst ho
    rw [import_resolve_format_eq]
    simp only [Option.getD_some, hr]
  · intro e c ho he hr
    subst ho
    subst he
    rw [import_resolve_format_eq]
    simp only [Option.getD_none, Option.getD_some, hr]
  · intro ho he
    subst ho
    subst he
    rfl
  · intro c hr hd
    rw [import_resolve_format_eq, hr, hd]
  · intro hr hd
    rw [import_resolve_format_eq, hr, hd]

/-- Witness for C5 (amended), exercising the four resolution outcomes on
concrete inputs: a recognized case-variant override, a recognized
extension, an unrecognized extension recovered by detection, and an
unrecognized extension with failing detection. -/
theorem c5_witness :
    import_resolve_format (fun _ => none) (some ("XMI")) none
        = Except.ok InterchangeCodec.xmi
    ∧ import_resolve_format (fun _ => none) none (some ("kpar"))
        = Except.ok InterchangeCodec.kpar
    ∧ import_resolve_format (fun _ => some InterchangeCodec.jsonld) none (some ("weird"))
        = Except.ok InterchangeCodec.jsonld
    ∧ ∃ msg, import_resolve_format (fun _ => none) none (some ("weird"))
        = Except.error msg := by
  refine ⟨?_, ?_, ?_, ?_⟩
  · exact (c5_amended_format_resolution (fun _ => none) (some ("XMI")) none).1
      ("XMI") InterchangeCodec.xmi rfl (by decide)
  · exact (c5_amended_format_resolution (fun _ => none) none (some ("kpar"))).2.1
      ("kpar") InterchangeCodec.kpar rfl rfl (by decide)
  · exact (c5_amended_format_resolution
        (fun _ => some InterchangeCodec.jsonld) none (some ("weird"))).2.2.2.1
      InterchangeCodec.jsonld (by decide) rfl
  · exact ⟨_, (c5_amended_format_resolution (fun _ => none) none (some ("weird"))).2.2.2.2
      (by decide) rfl⟩

/-- Counterexample to C6 as stated: the format name `XMI` is outside the
fixed set of supported format names, yet export does not fail with the
unsupported-format error; the dispatch lowercases the name first and
selects the xmi codec. -/
theorem c6_counterexample :
    ("XMI") ∉ supportedExportNames
      ∧ export_select_codec ("XMI") = Except.ok InterchangeCodec.xmi :=
  ⟨by decide, rfl⟩

/-- C6 (amended): the export codec is selected by exact match of the
lowercased format name against the fixed set of supported names, and
every format name whose lowercase form is outside that set causes export
to fail with the unsupported-format error. -/
theorem c6_amended_export_dispatch (format : String) :
    (strToLower format = "xmi" →
        export_select_codec format = Except.ok InterchangeCodec.xmi)
    ∧ (strToLower format = "kpar" →
        export_select_codec format = Except.ok InterchangeCodec.kpar)
    ∧ (strToLower format = "jsonld" ∨ strToLower format = "json-ld" →
        export_select_codec format = Except.ok InterchangeCodec.jsonld)
    ∧ (strToLower format ∉ supportedExportNames →
        export_select_codec format
          = Except.error ("Unsupported format: " ++ format ++
              ". Use xmi, kpar, or jsonld.")) := by
  refine ⟨?_, ?_, ?_, ?_⟩
  · intro h
    simp [export_select_codec, h]
  · intro h
    simp [export_select_codec, h]
  · intro h
    rcases h with h | h <;> simp [export_select_codec, h]
  · intro h
    simp only [supportedExportNames, List.mem_cons, List.not_mem_nil, or_false,
      not_or] at h
    simp [export_select_codec, h.1, h.2.1, h.2.2.1, h.2.2.2]

/-- Witness for C6 (amended): a case-variant supported name selects its
codec, and an unsupported name yields the unsupported-format error. -/
theorem c6_witness :
    export_select_codec ("Kpar") = Except.ok InterchangeCodec.kpar
    ∧ export_select_codec ("yaml")
        = Except.error ("Unsupported format: yaml. Use xmi, kpar, or jsonld.") := by
  refine ⟨?_, ?_⟩
  · exact (c6_amended_export_dispatch ("Kpar")).2.1 (by decide)
  · exact (c6_amended_export_dispatch ("yaml")).2.2.2 (by decide)

/-- Stability of one insertion step, per sort key: inserting `a` puts it
in front of the equal-key elements, and leaves the subsequence at every
key untouched otherwise. -/
theorem filter_keyEq_orderedInsert (k : DKey) (a : DiagnosticInfo) :
    ∀ l : List DiagnosticInfo,
      (List.orderedInsert diagLE a l).filter (keyEqB k)
        = if diagKey a = k then a :: l.filter (keyEqB k) else l.filter (keyEqB k)
  | [] => by
    by_cases hk : diagKey a = k <;> simp [keyEqB, hk]
  | b :: t => by
    by_cases hab : diagLE a b
    · by_cases hk : diagKey a = k <;>
        simp [List.orderedInsert, hab, List.filter_cons, keyEqB, hk]
    · have hab' : ¬ diagKey a ≤ diagKey b := hab
      have hba : diagKey b < diagKey a := not_le.mp hab'
      have ih := filter_keyEq_orderedInsert k a t
      by_cases hk : diagKey a = k
      · have hbk : ¬ diagKey b = k := by
          rw [← hk]
          exact ne_of_lt hba
        simp [List.orderedInsert, hab, List.filter_cons, keyEqB, hk, hbk, ih]
      · by_cases hbk : diagKey b = k <;>
          simp [List.orderedInsert, hab, List.filter_cons, keyEqB, hk, hbk, ih]

/-- Stability of the modelled sort: the subsequence of diagnostics with
any given key is preserved by `insertionSort`. -/
theorem filter_keyEq_insertionSort (k : DKey) :
    ∀ l : List DiagnosticInfo,
      (List.insertionSort diagLE l).filter (keyEqB k) = l.filter (keyEqB k)
  | [] => rfl
  | a :: t => by
    have ih := filter_keyEq_insertionSort k t
    by_cases hk : diagKey a = k <;>
      simp [List.insertionSort, filter_keyEq_orderedInsert, List.filter_cons,
        keyEqB, hk, ih]

/-- Two key-sorted lists with the same subsequence at every key are
equal. -/
theorem eq_of_sorted_of_filter_keyEq :
    ∀ (l₁ l₂ : List DiagnosticInfo), l₁.Sorted diagLE → l₂.Sorted diagLE →
      (∀ k, l₁.filter (keyEqB k) = l₂.filter (keyEqB k)) → l₁ = l₂
  | [], [], _, _, _ => rfl
  | [], b :: t₂, _, _, h => by
    have hb := h (diagKey b)
    simp [keyEqB, List.filter_cons] at hb
  | a :: t₁, [], _, _, h => by
    have ha := h (diagKey a)
    simp [keyEqB, List.filter_cons] at ha
  | a :: t₁, b :: t₂, h₁, h₂, h => by
    have hba : diagKey b ≤ diagKey a := by
      have hmem : a ∈ (b :: t₂).filter (keyEqB (diagKey a)) := by
        rw [← h (diagKey a)]
        simp [keyEqB, List.filter_cons]
      rcases List.mem_cons.mp (List.mem_of_mem_filter hmem) with he | hmem'
      · exact le_of_eq (congrArg diagKey he.symm)
      · exact List.rel_of_sorted_cons h₂ a hmem'
    have hab : diagKey a ≤ diagKey b := by
      have hmem : b ∈ (a :: t₁).filter (keyEqB (diagKey b)) := by
        rw [h (diagKey b)]
        simp [keyEqB, List.filter_cons]
      rcases List.mem_cons.mp (List.mem_of_mem_filter hmem) with he | hmem'
      · exact le_of_eq (congrArg diagKey he.symm)
      · exact List.rel_of_sorted_cons h₁ b hmem'
    have hkey : diagKey a = diagKey b := le_antisymm hab hba
    have hD := h (diagKey a)
    simp only [List.filter_cons, keyEqB, decide_eq_true_eq, hkey,
      if_pos rfl] at hD
    injection hD with hhead htail0
    have htail : ∀ k, t₁.filter (keyEqB k) = t₂.filter (keyEqB k) := by
      intro k
      have hk' := h k
      by_cases hka : diagKey a = k
      · have hkb : diagKey b = k := hkey ▸ hka
        simp only [List.filter_cons, keyEqB, hka, hkb, decide_eq_true_eq,
          if_pos rfl] at hk'
        injection hk'
      · have hkb : ¬ diagKey b = k := fun he => hka (hkey.symm ▸ he)
        simpa only [List.filter_cons, keyEqB, decide_eq_true_eq,
          if_neg hka, if_neg hkb] using hk'
    rw [hhead, eq_of_sorted_of_filter_keyEq t₁ t₂ h₁.of_cons h₂.of_cons htail]

/-- Filtering distributes over the per-file concatenation. -/
theorem filter_flatMapList (p : β → Bool) (g : α → List β) :
    ∀ l : List α,
      (flatMapList g l).filter p = flatMapList (fun a => (g a).filter p) l
  | [] => rfl
  | a :: l => by
    simp [flatMapList, List.filter_append, filter_flatMapList p g l]

/-- Concatenating per-element blocks is invariant under permutation of a
duplicate-free element list when at most one element (a designated `f`)
contributes a nonempty block. -/
theorem flatMapList_perm_eq {g : α → List β} {f : α}
    (hg : ∀ p, p ≠ f → g p = []) :
    ∀ {l₁ l₂ : List α}, l₁.Perm l₂ → l₁.Nodup →
      flatMapList g l₁ = flatMapList g l₂ := by
  intro l₁ l₂ hp
  induction hp with
  | nil => intro _; rfl
  | cons x _ ih =>
    intro hnd
    simp only [flatMapList]
    rw [ih (List.nodup_cons.mp hnd).2]
  | swap x y l =>
    intro hnd
    have hxy : y ≠ x := by
      intro he
      exact (List.nodup_cons.mp hnd).1 (he ▸ List.mem_cons_self x l)
    show g y ++ (g x ++ flatMapList g l) = g x ++ (g y ++ flatMapList g l)
    rw [← List.append_assoc, ← List.append_assoc]
    congr 1
    by_cases hx : x = f
    · have hy : g y = [] := hg y (fun he => hxy (he.trans hx.symm))
      simp [hy]
    · have hx' : g x = [] := hg x hx
      simp [hx']
  | trans h₁ _ ih₁ ih₂ =>
    intro hnd
    rw [ih₁ hnd, ih₂ (h₁.nodup_iff.mp hnd)]

/-- Every diagnostic contributed for a registered path carries that path
in its `file` field. -/
theorem file_of_mem_fileDiagnostics {host : AnalysisHost} {p : String}
    {d : DiagnosticInfo} (h : d ∈ fileDiagnostics host p) : d.file = p := by
  unfold fileDiagnostics at h
  split at h
  · obtain ⟨raw, _, rfl⟩ := List.mem_map.mp h
    rfl
  · exact absurd h (List.not_mem_nil d)

/-- A path other than the file component of a key contributes nothing to
the subsequence at that key. -/
theorem fileDiagnostics_filter_eq_nil {host : AnalysisHost} {p : String}
    {k : DKey} (hne : p ≠ (ofLex k).1) :
    (fileDiagnostics host p).filter (keyEqB k) = [] := by
  rw [List.filter_eq_nil_iff]
  intro d hd
  have hfile : d.file = p := file_of_mem_fileDiagnostics hd
  simp only [keyEqB, decide_eq_true_eq]
  intro hkeq
  exact hne (by rw [← hfile, ← hkeq]; rfl)

/-- Permutation-invariance of the aggregation: with duplicate-free
registered paths, the collected, sorted diagnostics do not depend on the
registration order. -/
theorem collect_diagnostics_perm_invariant (host : AnalysisHost)
    (files' : List String) (hp : host.files.Perm files')
    (hnd : host.files.Nodup) :
    collect_diagnostics host
      = collect_diagnostics { host with files := files' } := by
  apply eq_of_sorted_of_filter_keyEq
  · exact List.sorted_insertionSort diagLE _
  · exact List.sorted_insertionSort diagLE _
  · intro k
    show (List.insertionSort diagLE
        (flatMapList (fileDiagnostics host) host.files)).filter (keyEqB k)
      = (List.insertionSort diagLE
        (flatMapList (fileDiagnostics host) files')).filter (keyEqB k)
    rw [filter_keyEq_insertionSort, filter_keyEq_insertionSort,
      filter_flatMapList, filter_flatMapList]
    exact flatMapList_perm_eq
      (fun p hne => @fileDiagnostics_filter_eq_nil host p k hne)
      hp hnd

/-- C2: the collected diagnostics are sorted by the lexicographic order
on the tuple (file path, start line, start column) — the comparator
`diagLE` is exactly that tuple order — and the result is deterministic
regardless of file registration order: registering the same
(duplicate-free) files in any permuted order yields the identical
list. -/
theorem c2_diagnostics_sorted_and_deterministic (host : AnalysisHost) :
    (∀ a b : DiagnosticInfo, diagLE a b ↔
        (a.file < b.file
          ∨ (a.file = b.file
            ∧ (a.line < b.line ∨ (a.line = b.line ∧ a.col ≤ b.col)))))
    ∧ (collect_diagnostics host).Sorted diagLE
    ∧ ∀ files', host.files.Perm files' → host.files.Nodup →
        collect_diagnostics host
          = collect_diagnostics { host with files := files' } := by
  refine ⟨?_, List.sorted_insertionSort diagLE _, ?_⟩
  · intro a b
    show toLex (a.file, toLex (a.line, a.col))
        ≤ toLex (b.file, toLex (b.line, b.col)) ↔ _
    rw [Prod.Lex.le_iff, Prod.Lex.le_iff]
  · intro files' hp hnd
    exact collect_diagnostics_perm_invariant host files' hp hnd

/-- Witness for C2: on a concrete two-file host, the collected list is
sorted and registering the files in the opposite order produces the
identical list. -/
theorem c2_witness :
    (collect_diagnostics demoHost).Sorted diagLE
    ∧ collect_diagnostics demoHost
        = collect_diagnostics { demoHost with files := demoFilesSwapped } := by
  refine ⟨(c2_diagnostics_sorted_and_deterministic demoHost).2.1, ?_⟩
  exact (c2_diagnostics_sorted_and_deterministic demoHost).2.2 demoFilesSwapped
    (List.Perm.swap ("a.sysml") ("b.sysml") []) (by decide)

end SysterCli
